import Mathlib

/-!
Verification of the duck_decode steganography decoder.

The decode core lives (twice, line for line) in `duck_decode_cli.py` and in
`DecodeLogic` of `main.py`.  We embed it shallowly:

* byte strings are `List Nat` (each entry is a byte value `< 256` wherever the
  source produces one);
* a pixel buffer is its raster-order, channel-interleaved flat list of channel
  bytes together with its height and width (the source always works on
  `convert("RGB")` output, so the channel count is the constant 3);
* SHA-256 is supplied by Python's `hashlib` library, an external collaborator;
  it is modelled as an explicit function parameter `sha256f`, constrained in
  theorems only by the fact that its digests are 32 bytes long;
* the Python `float` expressions `int(w * 0.40)` and `int(h * 0.08)` are
  modelled as the exact floors `w * 40 / 100` and `h * 8 / 100`: the IEEE
  doubles `0.40` and `0.08` carry a relative error below `2⁻⁵³`, which cannot
  move a product across an integer boundary for any realistic dimension, so
  the float floor and the rational floor coincide.
-/

/-- The error kinds raised by the decoder (`ValueError`/`RuntimeError`
messages in the source, one constructor per distinct message). -/
inductive DecodeErr where
  | insufficientImageData
  | invalidPayloadLength
  | headerCorrupted
  | dataLengthMismatch
  | passwordRequired
  | wrongPassword
  | decodingFailed
  deriving DecidableEq, Repr

/-- An RGB pixel buffer: height, width, and the flat raster-order
channel-interleaved list of channel bytes (`arr.reshape(-1)` in the source);
index `i` holds channel `i % 3` of pixel `(i / (w*3), i % (w*3) / 3)`. -/
structure PixelBuffer where
  h : Nat
  w : Nat
  pix : List Nat
  deriving DecidableEq, Repr

/-- `skip_w = int(w * WATERMARK_SKIP_W_RATIO)` with ratio `0.40`. -/
def skip_w (w : Nat) : Nat := w * 40 / 100

/-- `skip_h = int(h * WATERMARK_SKIP_H_RATIO)` with ratio `0.08`. -/
def skip_h (h : Nat) : Nat := h * 8 / 100

/-- The flattened watermark mask of `extract_payload_with_k`: `mask2d` is all
ones, and only when both `skip_w > 0` and `skip_h > 0` is the rectangle
`mask2d[:skip_h, :skip_w]` cleared; the mask is then repeated over the three
channels, so a flat sample index `i` is kept iff its pixel is kept. -/
def sample_kept (h w : Nat) (i : Nat) : Bool :=
  if 0 < skip_w w ∧ 0 < skip_h h then
    decide (¬(i / (w * 3) < skip_h h ∧ i % (w * 3) / 3 < skip_w w))
  else
    true

/-- The `k` low bits of a channel byte, MSB first: `np.unpackbits` of
`value & ((1 << k) - 1)` keeps the last `k` of the 8 big-endian bits, i.e. the
big-endian bits of `v % 2^k`. -/
def low_bits (k v : Nat) : List Nat :=
  (List.range k).map (fun j => v % 2 ^ k / 2 ^ (k - 1 - j) % 2)

/-- The extracted bitstream of `extract_payload_with_k`: the masked samples in
raster order (`flat[np.flatnonzero(mask3d.reshape(-1))]`), each expanded to
its `k` low bits MSB first. -/
def extract_bits (buf : PixelBuffer) (k : Nat) : List Nat :=
  ((buf.pix.enum.filter (fun p => sample_kept buf.h buf.w p.1)).map Prod.snd).flatMap
    (low_bits k)

/-- Big-endian accumulation of a bit list (`np.packbits` then
`struct.unpack(">I", ...)` on a 32-bit slice). -/
def nat_of_bits (l : List Nat) : Nat := l.foldl (fun a b => 2 * a + b) 0

/-- One byte from at most 8 bits, MSB first; `np.packbits` zero-pads a final
partial group on the low side. -/
def bits_to_byte (l : List Nat) : Nat :=
  l.foldl (fun a b => 2 * a + b) 0 * 2 ^ (8 - l.length)

/-- Chunking loop of `np.packbits`, with structural fuel: every round consumes
8 bits (or finishes), so `bits.length` rounds always suffice. -/
def pack_bytes_go : Nat → List Nat → List Nat
  | 0, _ => []
  | _, [] => []
  | n + 1, bits => bits_to_byte (bits.take 8) :: pack_bytes_go n (bits.drop 8)

/-- `np.packbits(bits, bitorder="big").tobytes()`: successive groups of 8 bits
become bytes, the final partial group zero-padded. -/
def pack_bytes (bits : List Nat) : List Nat := pack_bytes_go bits.length bits

/-- The tail of `extract_payload_with_k` after the bitstream is built: the
`len(bits) < 32` check, the 32-bit big-endian `header_len`, the
`header_len <= 0 or total_bits > len(bits)` check, and the packing of
`bits[32 : 32 + header_len * 8]` into bytes. -/
def payload_of_bits (bits : List Nat) : Except DecodeErr (List Nat) :=
  if bits.length < 32 then .error .insufficientImageData
  else
    let header_len := nat_of_bits (bits.take 32)
    if header_len = 0 ∨ 32 + header_len * 8 > bits.length then
      .error .invalidPayloadLength
    else
      .ok (pack_bytes ((bits.drop 32).take (header_len * 8)))

/-- `extract_payload_with_k(arr, k)` (identical in `duck_decode_cli.py` and
`main.py`): watermark-masked LSB extraction followed by the length-prefixed
payload slice. -/
def extract_payload_with_k (buf : PixelBuffer) (k : Nat) :
    Except DecodeErr (List Nat) :=
  payload_of_bits (extract_bits buf k)

/-- Big-endian `u32` read: `struct.unpack(">I", b)[0]` on a 4-byte slice. -/
def be32_of_bytes (l : List Nat) : Nat := l.foldl (fun a b => 256 * a + b) 0

/-- Lowercase hex digit byte (ASCII) of a value `< 16`, as produced by Python's
`bytes.hex()`. -/
def hex_digit (d : Nat) : Nat := if d < 10 then 48 + d else 87 + d

/-- `salt.hex().encode("utf-8")`: two lowercase ASCII hex digits per byte. -/
def hex_bytes (l : List Nat) : List Nat :=
  l.flatMap (fun b => [hex_digit (b / 16), hex_digit (b % 16)])

/-- `str(counter).encode("utf-8")`: the ASCII bytes of the decimal digits. -/
def ascii_digits (n : Nat) : List Nat := (toString n).data.map Char.toNat

/-- The `while len(out) < length` loop of `generate_key_stream`, with explicit
fuel.  Python iterates unboundedly; every iteration appends one 32-byte
SHA-256 digest, so `length + 1` rounds of fuel are always enough to reach
`len(out) >= length`, and on 32-byte digests the fuelled loop agrees with the
unbounded one. -/
def ks_loop (sha256f : List Nat → List Nat) (material : List Nat) (length : Nat) :
    Nat → Nat → List Nat → List Nat
  | 0, _, out => out
  | fuel + 1, counter, out =>
    if out.length < length then
      ks_loop sha256f material length fuel (counter + 1)
        (out ++ sha256f (material ++ ascii_digits counter))
    else out

/-- `generate_key_stream(password, salt, length)`: key material is
`(password + salt.hex()).encode("utf-8")` (the password is represented by its
UTF-8 bytes), digests of `material + str(counter)` are concatenated until at
least `length` bytes exist, then truncated to exactly `length`. -/
def generate_key_stream (sha256f : List Nat → List Nat)
    (password salt : List Nat) (length : Nat) : List Nat :=
  let material := password ++ hex_bytes salt
  (ks_loop sha256f material length (length + 1) 0 []).take length

/-- The remainder of `parse_header` once `has_pwd`, `pwd_hash` and `salt` are
fixed.  The source addresses the header through a running offset `idx` (1
without password, 49 with); here `rest = header[idx:]` carries the unread
bytes, so `header[idx]` is `rest.headD 0`, `len(header) < idx + x` is
`rest.length < x` (the prior checks guarantee `idx ≤ len(header)`), and the
remaining slices are drops/takes of `rest`.  The steps are the `ext_len` byte,
the extension bytes, the big-endian `data_len`, the exact-length check on the
remaining data, and the password / decryption branch.  The extension is kept
as its raw bytes (`.decode("utf-8", errors="ignore")` is the identity on the
ASCII extensions exercised by the claims). -/
def parse_tail (sha256f : List Nat → List Nat) (rest password : List Nat)
    (has_pwd : Bool) (pwd_hash salt : List Nat) :
    Except DecodeErr (List Nat × List Nat) :=
  if rest.length < 1 then .error .headerCorrupted
  else
    let ext_len := rest.headD 0
    if rest.length < 1 + ext_len + 4 then .error .headerCorrupted
    else
      let ext := (rest.drop 1).take ext_len
      let data_len := be32_of_bytes ((rest.drop (1 + ext_len)).take 4)
      let data := rest.drop (1 + ext_len + 4)
      if data.length ≠ data_len then .error .dataLengthMismatch
      else if !has_pwd then .ok (data, ext)
      else if password.isEmpty then .error .passwordRequired
      else if sha256f (password ++ hex_bytes salt) ≠ pwd_hash then
        .error .wrongPassword
      else
        .ok (data.zipWith Nat.xor
          (generate_key_stream sha256f password salt data.length), ext)

/-- `parse_header(header, password)` (identical in `duck_decode_cli.py` and
`main.py`): the leading `has_pwd = header[0] == 1` byte, then the optional
32-byte hash / 16-byte salt block (`header[1:33]`, `header[33:49]`), then
`parse_tail` on the unread remainder (`header[1:]` without password,
`header[49:]` with). -/
def parse_header (sha256f : List Nat → List Nat) (header password : List Nat) :
    Except DecodeErr (List Nat × List Nat) :=
  if header.length < 1 then .error .headerCorrupted
  else if header.headD 0 == 1 then
    if header.length < 1 + 32 + 16 then .error .headerCorrupted
    else
      parse_tail sha256f (header.drop 49) password true
        ((header.drop 1).take 32) ((header.drop 33).take 16)
  else
    parse_tail sha256f (header.drop 1) password false [] []

/-- One bit-depth attempt of the orchestrator loop body:
`extract_payload_with_k` then `parse_header`, failures propagated. -/
def attempt (sha256f : List Nat → List Nat) (buf : PixelBuffer)
    (password : List Nat) (k : Nat) : Except DecodeErr (List Nat × List Nat) :=
  match extract_payload_with_k buf k with
  | .error e => .error e
  | .ok header => parse_header sha256f header password

/-- The `for k in (2, 6, 8)` loop with its `last_err` cell: try each depth,
remember the failure, stop on the first success; when the list is exhausted,
`raise last_err or RuntimeError("Decoding failed ...")`. -/
def try_depths (sha256f : List Nat → List Nat) (buf : PixelBuffer)
    (password : List Nat) :
    List Nat → Option DecodeErr → Except DecodeErr (List Nat × List Nat)
  | [], last_err => .error (last_err.getD .decodingFailed)
  | k :: ks, last_err =>
    match attempt sha256f buf password k with
    | .ok r => .ok r
    | .error e => try_depths sha256f buf password ks (some e)

/-- The bit-depth search of `decode_from_image` / `DecodeLogic.decode`. -/
def decode_search (sha256f : List Nat → List Nat) (buf : PixelBuffer)
    (password : List Nat) : Except DecodeErr (List Nat × List Nat) :=
  try_depths sha256f buf password [2, 6, 8] none

/-- The human-readable size rendering of `DecodeLogic.decode`: the branch
taken by the `if size > 1024 * 1024 / elif size > 1024 / else` chain.  The
`bytes` branch carries its exact f-string `f"{size} bytes"`; the `kb`/`mb`
branches carry the byte count (their two-decimal float rendering is not
modelled further — no claim depends on the digits). -/
inductive SizeStr where
  | bytes (s : String)
  | kb (size : Nat)
  | mb (size : Nat)
  deriving DecidableEq, Repr

/-- The size-string computation of `DecodeLogic.decode` (lines 168-174 of
`main.py`). -/
def size_str (size : Nat) : SizeStr :=
  if size > 1024 * 1024 then .mb size
  else if size > 1024 then .kb size
  else .bytes (toString size ++ " bytes")

/-- The ASCII bytes of a string literal, for writing byte-string constants
such as `".binpng"` in statements. -/
def strBytes (s : String) : List Nat := s.data.map Char.toNat

/-- A byte string rendered back as a string, one `Char` per byte; models
Python's string view of the extension for the ASCII extensions exercised by
the claims. -/
def asciiStr (l : List Nat) : String := ⟨l.map Char.ofNat⟩

/-- `ext.endswith(pat)` on the byte view of the extension. -/
def ends_with (l pat : List Nat) : Bool := pat.isSuffixOf l

/-- `ext.startswith(".")` on the byte view of the extension. -/
def starts_with_dot (l : List Nat) : Bool := l.headD 0 == 46

/-- The output file name chosen by `decode_from_image` / `DecodeLogic.decode`
inside the output directory: the fixed base `"duck_recovered"` plus `".mp4"`
on the `.binpng` branch, else the declared extension with a normalized
leading dot. -/
def output_name (ext : List Nat) : String :=
  if ends_with ext (strBytes ".binpng") then "duck_recovered.mp4"
  else if starts_with_dot ext then "duck_recovered" ++ asciiStr ext
  else "duck_recovered" ++ "." ++ asciiStr ext

/-- The returned extension: `"mp4"` on the `.binpng` branch, else
`ext.lstrip(".")`. -/
def final_ext_of (ext : List Nat) : String :=
  if ends_with ext (strBytes ".binpng") then "mp4"
  else asciiStr (ext.dropWhile (fun b => b == 46))

/-- Steps 5-8 of `DecodeLogic.decode` for a non-`.binpng` extension, as a pure
write plan: (file name inside the output directory, bytes written, returned
extension, size string of the written file). -/
def save_plain (raw ext : List Nat) : String × List Nat × String × SizeStr :=
  (output_name ext, raw, final_ext_of ext, size_str raw.length)

/-- `bytes.rstrip(b"\x00")`: drop the maximal trailing run of zero bytes. -/
def rstrip0 (l : List Nat) : List Nat := (l.reverse.dropWhile (· == 0)).reverse

/-- Raster-order flattening of an `h × w × 3` pixel array
(`arr.reshape(-1, 3).reshape(-1)`, the identity reshape pair on the flat
channel bytes). -/
def flatten_raster (arr : List (List (List Nat))) : List Nat :=
  arr.flatMap (fun row => row.flatMap id)

/-- `binpng_bytes_to_mp4_bytes`: the written `.binpng` payload is re-decoded
as an RGB image by the external collaborator (`Image.open(p).convert("RGB")`),
yielding the pixel array `arr`; the function flattens its channel bytes in
raster order and strips the trailing zero run. -/
def binpng_bytes_to_mp4_bytes (arr : List (List (List Nat))) : List Nat :=
  rstrip0 (flatten_raster arr)

/-! ### C1 — the watermark exclusion rectangle -/

/-- The claim's exclusion test, written exactly as stated: a sample is skipped
iff its pixel satisfies `row < height × 0.08` and `col < width × 0.40`, with
the exact real-number comparisons (`100·row < 8·h`, `100·col < 40·w`).  Kept
separate from `sample_kept` for refinement comparison only. -/
def claim_sample_kept (h w : Nat) (i : Nat) : Bool :=
  decide (¬(100 * (i / (w * 3)) < 8 * h ∧ 100 * (i % (w * 3) / 3) < 40 * w))

/-- The extraction pipeline with the claim's exclusion test in place of the
source's. -/
def claim_extract_bits (buf : PixelBuffer) (k : Nat) : List Nat :=
  ((buf.pix.enum.filter (fun p => claim_sample_kept buf.h buf.w p.1)).map
    Prod.snd).flatMap (low_bits k)

/-- The source's exclusion test with the `skip_w > 0 and skip_h > 0` guard
absorbed: a sample is skipped iff `row < ⌊h·0.08⌋` and `col < ⌊w·0.40⌋`. -/
def floor_sample_kept (h w : Nat) (i : Nat) : Bool :=
  decide (¬(i / (w * 3) < skip_h h ∧ i % (w * 3) / 3 < skip_w w))

theorem sample_kept_eq_floor (h w i : Nat) :
    sample_kept h w i = floor_sample_kept h w i := by
  unfold sample_kept floor_sample_kept
  by_cases hc : 0 < skip_w w ∧ 0 < skip_h h
  · simp [hc]
  · have : skip_w w = 0 ∨ skip_h h = 0 := by omega
    rcases this with h0 | h0 <;> simp [hc, h0]

/-- C1 (counterexample): on a 1×1 image the claim's real-valued exclusion test
skips the single pixel (`0 < 1×0.08` and `0 < 1×0.40`), so its bitstream is
empty, while the source computes `skip_h = int(0.08) = 0`, keeps every sample,
and extracts 24 bits. -/
theorem c1_counterexample :
    extract_bits ⟨1, 1, [1, 1, 1]⟩ 8 ≠ claim_extract_bits ⟨1, 1, [1, 1, 1]⟩ 8 := by
  decide

/-- C1 (amended): for every pixel buffer and bit depth `k`, the extraction
step skips a channel sample exactly when its pixel satisfies
`row < int(height*0.08)` and `col < int(width*0.40)` — the floored thresholds,
under which the source's `skip_w > 0 and skip_h > 0` guard is redundant — and
every other channel sample contributes its low `k` bits, MSB first, to the
bitstream. -/
theorem c1_exclusion_rectangle (buf : PixelBuffer) (k : Nat) :
    extract_bits buf k =
      ((buf.pix.enum.filter (fun p => floor_sample_kept buf.h buf.w p.1)).map
        Prod.snd).flatMap (low_bits k) := by
  unfold extract_bits
  rw [List.filter_congr (fun p _ => sample_kept_eq_floor buf.h buf.w p.1)]

/-! ### C2 — the human-readable size string -/

/-- C2 (counterexample): a file of exactly 1024 bytes is rendered by the
`else` branch as `"1024 bytes"`, not in kilobytes, and a file of exactly
1048576 bytes is rendered in kilobytes, not megabytes — the source compares
with strict `>`. -/
theorem c2_counterexample :
    size_str 1024 = SizeStr.bytes "1024 bytes" ∧
      size_str (1024 * 1024) = SizeStr.kb (1024 * 1024) := by
  exact ⟨rfl, rfl⟩

/-- C2 (amended): the size string is `f"{n} bytes"` when `n ≤ 1024`, a
kilobyte rendering when `1024 < n ≤ 1048576`, and a megabyte rendering when
`n > 1048576` (the source's boundaries are strict `>` comparisons, so both
1024 and 1048576 fall into the smaller unit). -/
theorem c2_size_string (n : Nat) :
    (n ≤ 1024 → size_str n = SizeStr.bytes (toString n ++ " bytes")) ∧
      (1024 < n ∧ n ≤ 1024 * 1024 → size_str n = SizeStr.kb n) ∧
      (1024 * 1024 < n → size_str n = SizeStr.mb n) := by
  refine ⟨fun hn => ?_, fun hn => ?_, fun hn => ?_⟩ <;> unfold size_str
  · rw [if_neg (by omega), if_neg (by omega)]
  · rw [if_neg (by omega), if_pos (by omega)]
  · rw [if_pos (by omega)]

/-- Witness for C2: 2000 bytes lands in the kilobyte branch. -/
theorem c2_size_string_witness :
    (1024 < 2000 ∧ 2000 ≤ 1024 * 1024) ∧ size_str 2000 = SizeStr.kb 2000 :=
  ⟨⟨by decide, by decide⟩, (c2_size_string 2000).2.1 ⟨by decide, by decide⟩⟩

/-! ### C3 — the concrete password-free header -/

/-- A concrete stand-in digest function (constant 32-byte digest), used to
instantiate the `sha256f` parameter in closed statements. -/
def shaZ : List Nat → List Nat := fun _ => List.replicate 32 0

/-- C3 (counterexample): the header byte sequence given by the claim encodes
`ext_len` on four bytes, but the source reads `ext_len` as a single byte, so
parsing reads `ext_len = 0`, `data_len = 0x00000374 = 884`, finds 8 data bytes
instead, and fails with `DataLengthMismatch` — it does not succeed. -/
theorem c3_counterexample :
    parse_header shaZ
        [0x00, 0x00, 0x00, 0x00, 0x03, 0x74, 0x78, 0x74,
         0x00, 0x00, 0x00, 0x02, 0x41, 0x42] [] =
      .error DecodeErr.dataLengthMismatch := by
  rfl

/-- C3 (amended): the header byte sequence
`[0x00, 0x03, 't','x','t', 0x00,0x00,0x00,0x02, 0x41,0x42]` — `has_password=0`,
a one-byte `ext_len=3`, `ext="txt"`, `data_len=2`, `data=b"AB"` — parses with
any password (and any digest function) to data `b"AB"` and extension `"txt"`,
and the save step writes exactly those bytes to `duck_recovered.txt` with size
string `"2 bytes"`. -/
theorem c3_concrete_header (sha256f : List Nat → List Nat)
    (password : List Nat) :
    parse_header sha256f
        [0x00, 0x03, 0x74, 0x78, 0x74, 0x00, 0x00, 0x00, 0x02, 0x41, 0x42]
        password =
      .ok ([0x41, 0x42], strBytes "txt") ∧
    save_plain [0x41, 0x42] (strBytes "txt") =
      ("duck_recovered.txt", [0x41, 0x42], "txt", SizeStr.bytes "2 bytes") := by
  exact ⟨rfl, rfl⟩

/-! ### C4 — the bit-depth search -/

/-- C4: the depth search is the first-match-wins cascade over `k = 2, 6, 8`:
a successful depth determines the result and suppresses the later depths, a
failed attempt's error replaces `last_err`, and after the loop the decode
fails with the error remembered from the last attempt — with the generic
`Decoding failed` error reserved for an exhausted loop that recorded no
error. -/
theorem c4_depth_search (sha256f : List Nat → List Nat) (buf : PixelBuffer)
    (password : List Nat) :
    (decode_search sha256f buf password =
      match attempt sha256f buf password 2 with
      | .ok r => .ok r
      | .error _ =>
        match attempt sha256f buf password 6 with
        | .ok r => .ok r
        | .error _ => attempt sha256f buf password 8) ∧
    try_depths sha256f buf password [] none =
      .error DecodeErr.decodingFailed ∧
    (∀ e, try_depths sha256f buf password [] (some e) = .error e) := by
  refine ⟨?_, rfl, fun e => rfl⟩
  unfold decode_search
  cases h2 : attempt sha256f buf password 2 with
  | ok r => simp [try_depths, h2]
  | error e2 =>
    cases h6 : attempt sha256f buf password 6 with
    | ok r => simp [try_depths, h2, h6]
    | error e6 =>
      cases h8 : attempt sha256f buf password 8 with
      | ok r => simp [try_depths, h2, h6, h8]
      | error e8 => simp [try_depths, h2, h6, h8]

/-! ### C10 — non-boolean `has_password` bytes -/

/-- Big-endian 4-byte encoding of a `u32`, used to build concrete header
fixtures in statements. -/
def be32 (n : Nat) : List Nat :=
  [n / 2 ^ 24 % 256, n / 2 ^ 16 % 256, n / 2 ^ 8 % 256, n % 256]

theorem be32_roundtrip (n : Nat) (h : n < 2 ^ 32) :
    be32_of_bytes (be32 n) = n := by
  simp only [be32, be32_of_bytes, List.foldl_cons, List.foldl_nil]
  omega

theorem parse_tail_no_pwd_password_irrel (sha256f : List Nat → List Nat)
    (rest pw pw' ph s : List Nat) :
    parse_tail sha256f rest pw false ph s = parse_tail sha256f rest pw' false ph s := by
  simp only [parse_tail, Bool.not_false, if_true]

theorem parse_tail_no_pwd_no_password_error (sha256f : List Nat → List Nat)
    (rest pw ph s : List Nat) :
    parse_tail sha256f rest pw false ph s ≠ .error DecodeErr.passwordRequired ∧
      parse_tail sha256f rest pw false ph s ≠ .error DecodeErr.wrongPassword := by
  simp only [parse_tail, Bool.not_false, if_true]
  constructor <;> (split_ifs <;> simp)

theorem parse_header_not_one (sha256f : List Nat → List Nat) (b : Nat)
    (hb : b ≠ 1) (t pw : List Nat) :
    parse_header sha256f (b :: t) pw = parse_tail sha256f t pw false [] [] := by
  have hb' : (b == 1) = false := by simpa using hb
  simp [parse_header, hb']

theorem parse_tail_no_pwd_ok (sha256f : List Nat → List Nat)
    (extb data pw : List Nat) (hd : data.length < 2 ^ 32) :
    parse_tail sha256f (extb.length :: (extb ++ (be32 data.length ++ data)))
        pw false [] [] =
      .ok (data, extb) := by
  have hb32 : (be32 data.length).length = 4 := by simp [be32]
  have h1 : (extb ++ (be32 data.length ++ data)).take extb.length = extb :=
    List.take_left _ _
  have h2 : List.drop (1 + extb.length)
      (extb.length :: (extb ++ (be32 data.length ++ data))) =
      be32 data.length ++ data := by
    rw [show 1 + extb.length = extb.length + 1 by omega, List.drop_succ_cons,
      List.drop_left]
  have h3 : List.drop (1 + extb.length + 4)
      (extb.length :: (extb ++ (be32 data.length ++ data))) = data := by
    rw [show 1 + extb.length + 4 = (extb.length + 4) + 1 by omega,
      List.drop_succ_cons, List.drop_append 4, ← hb32, List.drop_left]
  simp only [parse_tail, List.headD_cons, List.length_cons, List.length_append,
    List.drop_one, List.tail_cons, h1, h2, h3, hb32]
  rw [if_neg (by omega), if_neg (by omega), List.take_left' hb32,
    be32_roundtrip data.length hd, if_neg (by omega)]
  simp

/-- C10: a leading header byte other than 1 (0, 2, 255, ...) selects the
password-free branch — the parse agrees with a 0 byte, is independent of the
supplied password, can never fail with `PasswordRequired` or `WrongPassword`,
and on a well-formed remainder returns the data bytes unchanged. -/
theorem c10_non_one_flag (sha256f : List Nat → List Nat) (b : Nat)
    (hb : b ≠ 1) (t password password2 extb data : List Nat)
    (hd : data.length < 2 ^ 32) :
    parse_header sha256f (b :: t) password =
        parse_header sha256f (0 :: t) password ∧
      parse_header sha256f (b :: t) password =
        parse_header sha256f (b :: t) password2 ∧
      parse_header sha256f (b :: t) password ≠
        .error DecodeErr.passwordRequired ∧
      parse_header sha256f (b :: t) password ≠
        .error DecodeErr.wrongPassword ∧
      parse_header sha256f
          (b :: extb.length :: (extb ++ (be32 data.length ++ data))) password =
        .ok (data, extb) := by
  rw [parse_header_not_one sha256f b hb, parse_header_not_one sha256f 0 (by omega),
    parse_header_not_one sha256f b hb t password2,
    parse_header_not_one sha256f b hb _ password]
  refine ⟨rfl, parse_tail_no_pwd_password_irrel _ _ _ _ _ _,
    (parse_tail_no_pwd_no_password_error _ _ _ _ _).1,
    (parse_tail_no_pwd_no_password_error _ _ _ _ _).2,
    parse_tail_no_pwd_ok sha256f extb data password hd⟩

/-- Witness for C10: the flag byte 2 with a one-byte extension `"a"` and data
`b"\x07"` parses, for password `b"p"`, to that data and extension. -/
theorem c10_non_one_flag_witness :
    (2 : Nat) ≠ 1 ∧ ([7] : List Nat).length < 2 ^ 32 ∧
      parse_header shaZ (2 :: [97].length :: ([97] ++ (be32 [7].length ++ [7])))
          [112] =
        .ok ([7], [97]) :=
  ⟨by decide, by decide,
    (c10_non_one_flag shaZ 2 (by decide) [] [112] [112] [97] [7]
        (by decide)).2.2.2.2⟩

/-! ### C6 — the length-prefixed payload framing -/

theorem pack_bytes_go_length (n : Nat) (bits : List Nat)
    (h : bits.length ≤ n) :
    (pack_bytes_go n bits).length = (bits.length + 7) / 8 := by
  induction n generalizing bits with
  | zero =>
    have hb : bits = [] := by
      cases bits with
      | nil => rfl
      | cons x xs => simp at h
    simp [hb, pack_bytes_go]
  | succ n ih =>
    cases bits with
    | nil => simp [pack_bytes_go]
    | cons b bs =>
      simp only [pack_bytes_go, List.length_cons, List.length_drop]
      rw [ih _ (by simp only [List.length_drop, List.length_cons] at *; omega)]
      simp only [List.length_drop, List.length_cons] at *
      omega

theorem pack_bytes_length (bits : List Nat) :
    (pack_bytes bits).length = (bits.length + 7) / 8 :=
  pack_bytes_go_length bits.length bits le_rfl

/-- C6: for every extracted bitstream, fewer than 32 bits fails with
`InsufficientImageData`; otherwise, with `header_len` the big-endian value of
the first 32 bits, the attempt fails with `InvalidPayloadLength` exactly when
`header_len = 0` or `32 + header_len*8 > len(bits)`, and otherwise the next
`header_len*8` bits are packed into exactly `header_len` header bytes. -/
theorem c6_payload_framing (buf : PixelBuffer) (k : Nat) :
    ((extract_bits buf k).length < 32 →
      extract_payload_with_k buf k = .error DecodeErr.insufficientImageData) ∧
    (32 ≤ (extract_bits buf k).length →
      (nat_of_bits ((extract_bits buf k).take 32) = 0 ∨
        32 + nat_of_bits ((extract_bits buf k).take 32) * 8 >
          (extract_bits buf k).length) →
      extract_payload_with_k buf k = .error DecodeErr.invalidPayloadLength) ∧
    (∀ hl, hl = nat_of_bits ((extract_bits buf k).take 32) → hl ≠ 0 →
      32 + hl * 8 ≤ (extract_bits buf k).length →
      extract_payload_with_k buf k =
        .ok (pack_bytes (((extract_bits buf k).drop 32).take (hl * 8))) ∧
      (pack_bytes (((extract_bits buf k).drop 32).take (hl * 8))).length = hl) := by
  refine ⟨fun hlt => ?_, fun hge hbad => ?_, fun hl hhl hne hle => ⟨?_, ?_⟩⟩
  · simp only [extract_payload_with_k, payload_of_bits, if_pos hlt]
  · simp only [extract_payload_with_k, payload_of_bits]
    rw [if_neg (show ¬(extract_bits buf k).length < 32 by omega), if_pos hbad]
  · simp only [extract_payload_with_k, payload_of_bits, ← hhl]
    rw [if_neg (show ¬(extract_bits buf k).length < 32 by omega),
      if_neg (show ¬(hl = 0 ∨ 32 + hl * 8 > (extract_bits buf k).length) by
        push_neg
        exact ⟨hne, by omega⟩)]
  · rw [pack_bytes_length, List.length_take, List.length_drop]
    omega

/-- Witness for C6: a 1×2 image whose six channel bytes are
`[0,0,0,1,171,0]` extracts, at depth 8, 48 bits framing a one-byte payload
`0xAB`. -/
theorem c6_payload_framing_witness :
    extract_payload_with_k ⟨1, 2, [0, 0, 0, 1, 171, 0]⟩ 8 = .ok [171] := by
  have h := (c6_payload_framing ⟨1, 2, [0, 0, 0, 1, 171, 0]⟩ 8).2.2 1
    (by decide) (by decide) (by decide)
  rw [h.1]
  congr 1

/-! ### C8 — the binpng reinterpretation -/

theorem rstrip0_getLast (l : List Nat) : (rstrip0 l).getLast? ≠ some 0 := by
  unfold rstrip0
  intro hc
  have h := List.head?_dropWhile_not (fun b => b == 0) l.reverse
  rw [← List.head?_reverse] at hc
  simp only [List.reverse_reverse] at hc
  rw [hc] at h
  simp at h

theorem rstrip0_decomp (l : List Nat) :
    ∃ z, l = rstrip0 l ++ List.replicate z 0 := by
  refine ⟨(l.reverse.takeWhile (· == 0)).length, ?_⟩
  unfold rstrip0
  conv_lhs =>
    rw [← List.reverse_reverse l,
      ← List.takeWhile_append_dropWhile (p := fun b => b == 0) (l := l.reverse)]
  rw [List.reverse_append]
  congr 1
  have h1 : l.reverse.takeWhile (fun b => b == 0) =
      List.replicate (l.reverse.takeWhile (fun b => b == 0)).length 0 := by
    rw [List.eq_replicate_iff]
    exact ⟨rfl, fun b hb => by simpa using List.mem_takeWhile_imp hb⟩
  rw [h1]
  simp

/-- C8: the binpng reinterpretation keeps a prefix of the flattened raster
channel bytes and strips exactly the maximal trailing zero run (the remainder
of the flattened bytes is a run of zeros and the kept part does not end in a
zero byte); the concrete flattened bytes `[1,2,3,0,0,0]` reinterpret to
`[1,2,3]`; and any extension ending in `".binpng"` is written as
`duck_recovered.mp4` with returned extension `"mp4"`. -/
theorem c8_binpng_strip (arr : List (List (List Nat))) (pre : List Nat) :
    (∃ z, flatten_raster arr =
        binpng_bytes_to_mp4_bytes arr ++ List.replicate z 0) ∧
      (binpng_bytes_to_mp4_bytes arr).getLast? ≠ some 0 ∧
      binpng_bytes_to_mp4_bytes [[[1, 2, 3], [0, 0, 0]]] = [1, 2, 3] ∧
      output_name (pre ++ strBytes ".binpng") = "duck_recovered.mp4" ∧
      final_ext_of (pre ++ strBytes ".binpng") = "mp4" := by
  refine ⟨rstrip0_decomp _, rstrip0_getLast _, by decide, ?_, ?_⟩
  · simp [output_name, ends_with, List.isSuffixOf]
  · simp [final_ext_of, ends_with, List.isSuffixOf]

/-! ### C7 — the keystream generator -/

/-- The concatenation of the first `n` counter digests
`SHA-256(material ++ decimal_ascii(counter))`, `counter = 0, 1, ...` — the
stream the claim describes the keystream as a truncation of. -/
def digest_concat (sha256f : List Nat → List Nat) (material : List Nat)
    (n : Nat) : List Nat :=
  (List.range n).flatMap (fun c => sha256f (material ++ ascii_digits c))

theorem digest_concat_succ (sha256f : List Nat → List Nat) (material : List Nat)
    (n : Nat) :
    digest_concat sha256f material (n + 1) =
      digest_concat sha256f material n ++
        sha256f (material ++ ascii_digits n) := by
  simp [digest_concat, List.range_succ]

theorem digest_concat_length (sha256f : List Nat → List Nat)
    (hsha : ∀ l, (sha256f l).length = 32) (material : List Nat) (n : Nat) :
    (digest_concat sha256f material n).length = 32 * n := by
  induction n with
  | zero => rfl
  | succ n ih =>
    rw [digest_concat_succ, List.length_append, ih, hsha]
    omega

theorem digest_concat_prefix_mono (sha256f : List Nat → List Nat)
    (material : List Nat) (a b : Nat) (hab : a ≤ b) :
    digest_concat sha256f material a <+: digest_concat sha256f material b := by
  induction b with
  | zero =>
    have ha : a = 0 := by omega
    subst ha
    exact List.prefix_rfl
  | succ b ih =>
    by_cases h : a = b + 1
    · subst h
      exact List.prefix_rfl
    · exact (ih (by omega)).trans
        ⟨_, (digest_concat_succ sha256f material b).symm⟩

theorem prefix_take_eq {l1 l2 : List Nat} (h : l1 <+: l2) (L : Nat)
    (hL : L ≤ l1.length) : l1.take L = l2.take L := by
  obtain ⟨t, rfl⟩ := h
  rw [List.take_append_of_le_length hL]

theorem digest_take_eq (sha256f : List Nat → List Nat)
    (hsha : ∀ l, (sha256f l).length = 32) (material : List Nat)
    (a b L : Nat) (ha : L ≤ 32 * a) (hb : L ≤ 32 * b) :
    (digest_concat sha256f material a).take L =
      (digest_concat sha256f material b).take L := by
  rcases Nat.le_total a b with hab | hab
  · exact prefix_take_eq (digest_concat_prefix_mono sha256f material a b hab) L
      (by rw [digest_concat_length sha256f hsha]; omega)
  · exact (prefix_take_eq (digest_concat_prefix_mono sha256f material b a hab) L
      (by rw [digest_concat_length sha256f hsha]; omega)).symm

theorem ks_loop_digest (sha256f : List Nat → List Nat)
    (hsha : ∀ l, (sha256f l).length = 32) (material : List Nat) (L : Nat) :
    ∀ f c, L ≤ 32 * (c + f) →
      ∃ n, ks_loop sha256f material L f c (digest_concat sha256f material c) =
          digest_concat sha256f material n ∧ L ≤ 32 * n := by
  intro f
  induction f with
  | zero => exact fun c h => ⟨c, rfl, by omega⟩
  | succ f ih =>
    intro c h
    by_cases hlt : (digest_concat sha256f material c).length < L
    · rw [show ks_loop sha256f material L (f + 1) c
          (digest_concat sha256f material c) =
          ks_loop sha256f material L f (c + 1)
            (digest_concat sha256f material c ++
              sha256f (material ++ ascii_digits c)) from if_pos hlt,
        ← digest_concat_succ]
      exact ih (c + 1) (by omega)
    · rw [show ks_loop sha256f material L (f + 1) c
          (digest_concat sha256f material c) =
          digest_concat sha256f material c from if_neg hlt]
      refine ⟨c, rfl, ?_⟩
      rw [digest_concat_length sha256f hsha] at hlt
      omega

theorem generate_eq_take (sha256f : List Nat → List Nat)
    (hsha : ∀ l, (sha256f l).length = 32) (password salt : List Nat)
    (L n : Nat) (hn : L ≤ 32 * n) :
    generate_key_stream sha256f password salt L =
      (digest_concat sha256f (password ++ hex_bytes salt) n).take L := by
  obtain ⟨m, hm, hLm⟩ :=
    ks_loop_digest sha256f hsha (password ++ hex_bytes salt) L (L + 1) 0
      (by omega)
  rw [show digest_concat sha256f (password ++ hex_bytes salt) 0 = [] from rfl]
    at hm
  unfold generate_key_stream
  simp only []
  rw [hm]
  exact digest_take_eq sha256f hsha _ m n L hLm hn

/-- C7: the keystream generator is deterministic, `generate(p, s, L)` is a
byte-wise prefix of `generate(p, s, L2)` for `L < L2`, and
`generate(p, s, L)` equals the concatenation of the counter digests
`SHA-256(utf8(p) ++ utf8(hex(s)) ++ decimal_ascii(counter))`,
`counter = 0, 1, 2, ...`, truncated to exactly `L` bytes (stated for every
long-enough finite concatenation).  The digest function is the external
`hashlib.sha256`, abstracted as any function with 32-byte digests. -/
theorem c7_keystream (sha256f : List Nat → List Nat)
    (hsha : ∀ l, (sha256f l).length = 32) (password salt : List Nat)
    (hsalt : salt.length = 16) (L L2 : Nat) (hL : L < L2) :
    generate_key_stream sha256f password salt L =
        generate_key_stream sha256f password salt L ∧
      generate_key_stream sha256f password salt L <+:
        generate_key_stream sha256f password salt L2 ∧
      ∀ n, L ≤ 32 * n →
        generate_key_stream sha256f password salt L =
          (digest_concat sha256f (password ++ hex_bytes salt) n).take L := by
  refine ⟨rfl, ?_, fun n hn => generate_eq_take sha256f hsha password salt L n hn⟩
  set n0 := (L2 + 31) / 32 with hn0
  have h2 : L2 ≤ 32 * n0 := by omega
  have h1 : L ≤ 32 * n0 := by omega
  rw [generate_eq_take sha256f hsha password salt L n0 h1,
    generate_eq_take sha256f hsha password salt L2 n0 h2]
  refine ⟨((digest_concat sha256f (password ++ hex_bytes salt) n0).take L2).drop L, ?_⟩
  rw [show (digest_concat sha256f (password ++ hex_bytes salt) n0).take L =
      ((digest_concat sha256f (password ++ hex_bytes salt) n0).take L2).take L by
    rw [List.take_take]
    congr 1
    omega, List.take_append_drop]

/-- Witness for C7 at the constant digest function, empty password, all-zero
16-byte salt, `L = 1 < 2 = L2`. -/
theorem c7_keystream_witness :
    (∀ l, (shaZ l).length = 32) ∧ (List.replicate 16 0).length = 16 ∧ 1 < 2 ∧
      generate_key_stream shaZ [] (List.replicate 16 0) 1 <+:
        generate_key_stream shaZ [] (List.replicate 16 0) 2 :=
  ⟨fun l => by simp [shaZ], by simp, by decide,
    (c7_keystream shaZ (fun l => by simp [shaZ]) [] (List.replicate 16 0)
        (by simp) 1 2 (by decide)).2.1⟩

/-! ### C5 — the password branch -/

/-- A well-formed password-protected header fixture:
`1 ∥ hash ∥ salt ∥ ext_len ∥ ext ∥ data_len ∥ data` with consistent lengths. -/
def mk_header (hash salt extb data : List Nat) : List Nat :=
  1 :: (hash ++ (salt ++ (extb.length :: (extb ++ (be32 data.length ++ data)))))

theorem parse_header_mk (sha256f : List Nat → List Nat)
    (hash salt extb data pw : List Nat) (hh : hash.length = 32)
    (hs : salt.length = 16) :
    parse_header sha256f (mk_header hash salt extb data) pw =
      parse_tail sha256f (extb.length :: (extb ++ (be32 data.length ++ data)))
        pw true hash salt := by
  have hd1 : (mk_header hash salt extb data).drop 1 =
      hash ++ (salt ++ (extb.length :: (extb ++ (be32 data.length ++ data)))) := by
    simp [mk_header]
  have hd33 : (mk_header hash salt extb data).drop 33 =
      salt ++ (extb.length :: (extb ++ (be32 data.length ++ data))) := by
    unfold mk_header
    rw [show (33 : Nat) = 32 + 1 from rfl, List.drop_succ_cons,
      show (32 : Nat) = hash.length + 0 by omega, List.drop_append,
      List.drop_zero]
  have hd49 : (mk_header hash salt extb data).drop 49 =
      extb.length :: (extb ++ (be32 data.length ++ data)) := by
    unfold mk_header
    rw [show (49 : Nat) = 48 + 1 from rfl, List.drop_succ_cons,
      show (48 : Nat) = hash.length + 16 by omega, List.drop_append,
      show (16 : Nat) = salt.length + 0 by omega, List.drop_append,
      List.drop_zero]
  unfold parse_header
  rw [if_neg (by simp [mk_header]), if_pos (by simp [mk_header]),
    if_neg (by simp [mk_header]; omega), hd1, hd33, hd49,
    List.take_left' hh, List.take_left' hs]

/-- The frame part of `parse_tail` on a well-formed remainder: the extension,
`data_len` and data checks all pass, leaving only the password branch. -/
theorem parse_tail_wf (sha256f : List Nat → List Nat)
    (extb data pw ph s : List Nat) (hp : Bool) (hd : data.length < 2 ^ 32) :
    parse_tail sha256f (extb.length :: (extb ++ (be32 data.length ++ data)))
        pw hp ph s =
      if !hp then .ok (data, extb)
      else if pw.isEmpty then .error .passwordRequired
      else if sha256f (pw ++ hex_bytes s) ≠ ph then .error .wrongPassword
      else .ok (data.zipWith Nat.xor
        (generate_key_stream sha256f pw s data.length), extb) := by
  have hb32 : (be32 data.length).length = 4 := by simp [be32]
  have h1 : (extb ++ (be32 data.length ++ data)).take extb.length = extb :=
    List.take_left _ _
  have h2 : List.drop (1 + extb.length)
      (extb.length :: (extb ++ (be32 data.length ++ data))) =
      be32 data.length ++ data := by
    rw [show 1 + extb.length = extb.length + 1 by omega, List.drop_succ_cons,
      List.drop_left]
  have h3 : List.drop (1 + extb.length + 4)
      (extb.length :: (extb ++ (be32 data.length ++ data))) = data := by
    rw [show 1 + extb.length + 4 = (extb.length + 4) + 1 by omega,
      List.drop_succ_cons, List.drop_append 4, ← hb32, List.drop_left]
  simp only [parse_tail, List.headD_cons, List.length_cons, List.length_append,
    List.drop_one, List.tail_cons, h1, h2, h3, hb32]
  rw [if_neg (by omega), if_neg (by omega), List.take_left' hb32,
    be32_roundtrip data.length hd, if_neg (by omega)]

theorem generate_key_stream_length (sha256f : List Nat → List Nat)
    (hsha : ∀ l, (sha256f l).length = 32) (pw s : List Nat) (L : Nat) :
    (generate_key_stream sha256f pw s L).length = L := by
  rw [generate_eq_take sha256f hsha pw s L ((L + 31) / 32) (by omega),
    List.length_take, digest_concat_length sha256f hsha]
  omega

theorem zipWith_xor_cancel (p ks : List Nat) (h : p.length = ks.length) :
    (p.zipWith Nat.xor ks).zipWith Nat.xor ks = p := by
  induction p generalizing ks with
  | nil => simp
  | cons a p ih =>
    cases ks with
    | nil => simp at h
    | cons b ks =>
      simp only [List.zipWith_cons_cons, List.cons.injEq]
      exact ⟨Nat.xor_cancel_right b a, ih ks (by simpa using h)⟩

/-- C5: on a well-formed password-protected header, an empty password fails
with `PasswordRequired`; a non-empty password whose
`SHA-256(password ++ hex(salt))` differs from the stored hash fails with
`WrongPassword`; a matching hash returns the byte-wise XOR of the data with
the keystream of length `len(data)`, together with the extension — so a data
field that was XOR-encrypted from a plaintext with that keystream decrypts
back to exactly that plaintext. -/
theorem c5_password_branch (sha256f : List Nat → List Nat)
    (hsha : ∀ l, (sha256f l).length = 32) (hash salt extb data pw : List Nat)
    (hh : hash.length = 32) (hs : salt.length = 16)
    (hd : data.length < 2 ^ 32) :
    parse_header sha256f (mk_header hash salt extb data) [] =
        .error DecodeErr.passwordRequired ∧
      (pw ≠ [] → sha256f (pw ++ hex_bytes salt) ≠ hash →
        parse_header sha256f (mk_header hash salt extb data) pw =
          .error DecodeErr.wrongPassword) ∧
      (pw ≠ [] → sha256f (pw ++ hex_bytes salt) = hash →
        parse_header sha256f (mk_header hash salt extb data) pw =
          .ok (data.zipWith Nat.xor
            (generate_key_stream sha256f pw salt data.length), extb)) ∧
      (∀ plain : List Nat, pw ≠ [] → sha256f (pw ++ hex_bytes salt) = hash →
        data = plain.zipWith Nat.xor
            (generate_key_stream sha256f pw salt plain.length) →
        parse_header sha256f (mk_header hash salt extb data) pw =
          .ok (plain, extb)) := by
  have hrw : ∀ pw', parse_header sha256f (mk_header hash salt extb data) pw' =
      parse_tail sha256f
        (extb.length :: (extb ++ (be32 data.length ++ data))) pw' true hash salt :=
    fun pw' => parse_header_mk sha256f hash salt extb data pw' hh hs
  have hwf : ∀ pw', parse_header sha256f (mk_header hash salt extb data) pw' =
      if pw'.isEmpty then Except.error DecodeErr.passwordRequired
      else if sha256f (pw' ++ hex_bytes salt) ≠ hash then
        Except.error DecodeErr.wrongPassword
      else Except.ok (data.zipWith Nat.xor
        (generate_key_stream sha256f pw' salt data.length), extb) := by
    intro pw'
    rw [hrw pw', parse_tail_wf sha256f extb data pw' hash salt true hd]
    simp only [Bool.not_true, Bool.false_eq_true, if_false]
  refine ⟨?_, fun hpw hne => ?_, fun hpw heq => ?_, fun plain hpw heq hdata => ?_⟩
  · rw [hwf []]
    rfl
  · rw [hwf pw, if_neg (by simpa using hpw), if_pos hne]
  · rw [hwf pw, if_neg (by simpa using hpw), if_neg (by simp [heq])]
  · have hlen : data.length = plain.length := by
      rw [hdata, List.length_zipWith,
        generate_key_stream_length sha256f hsha pw salt plain.length]
      omega
    rw [hwf pw, if_neg (by simpa using hpw), if_neg (by simp [heq]), hlen, hdata]
    rw [zipWith_xor_cancel plain _
      (by rw [generate_key_stream_length sha256f hsha pw salt plain.length])]

/-- Witness for C5 at the constant digest function: hash equal to the constant
digest, all-zero salt, data `[7]` (the all-zero keystream XORs to the
identity), password `b"p"`. -/
theorem c5_password_branch_witness :
    (∀ l, (shaZ l).length = 32) ∧
      ([112] : List Nat) ≠ [] ∧
      shaZ ([112] ++ hex_bytes (List.replicate 16 0)) = List.replicate 32 0 ∧
      parse_header shaZ
          (mk_header (List.replicate 32 0) (List.replicate 16 0) [97] [7]) [] =
        .error DecodeErr.passwordRequired ∧
      parse_header shaZ
          (mk_header (List.replicate 32 0) (List.replicate 16 0) [97] [7])
          [112] =
        .ok ([7].zipWith Nat.xor
          (generate_key_stream shaZ [112] (List.replicate 16 0) 1), [97]) := by
  have h := c5_password_branch shaZ (fun l => by simp [shaZ])
    (List.replicate 32 0) (List.replicate 16 0) [97] [7] [112]
    (by simp) (by simp) (by decide)
  exact ⟨fun l => by simp [shaZ], by decide, by simp [shaZ], h.1,
    h.2.2.1 (by decide) (by simp [shaZ])⟩

/-! ### C9 — truncated headers -/

/-- C9 (counterexample): a data field whose declared length exceeds the
remaining bytes — `data_len = 5` with 0 bytes after it — fails with
`DataLengthMismatch`, not `HeaderCorrupted`. -/
theorem c9_counterexample :
    parse_header shaZ [0, 1, 97, 0, 0, 0, 5] [] =
        .error DecodeErr.dataLengthMismatch ∧
      parse_header shaZ [0, 1, 97, 0, 0, 0, 5] [] ≠
        .error DecodeErr.headerCorrupted := by
  refine ⟨rfl, fun hc => ?_⟩
  rw [show parse_header shaZ [0, 1, 97, 0, 0, 0, 5] [] =
      .error DecodeErr.dataLengthMismatch from rfl] at hc
  exact DecodeErr.noConfusion (Except.error.inj hc)

/-- Dropping the 1-byte flag plus the 48-byte password block
(`header[49:]`) on a header shaped `1 ∥ hash ∥ salt ∥ X`. -/
theorem drop_49_pwd (hash salt X : List Nat) (hh : hash.length = 32)
    (hs : salt.length = 16) :
    (1 :: (hash ++ (salt ++ X))).drop 49 = X := by
  rw [show (49 : Nat) = 48 + 1 from rfl, List.drop_succ_cons,
    show (48 : Nat) = hash.length + 16 by omega, List.drop_append,
    show (16 : Nat) = salt.length + 0 by omega, List.drop_append,
    List.drop_zero]

/-- On a remainder whose frame is intact but whose declared `data_len`
disagrees with the actual data bytes, `parse_tail` fails with
`DataLengthMismatch` — for either value of `has_pwd`, since the source checks
`len(data) != data_len` before any password logic. -/
theorem parse_tail_data_mismatch (sha256f : List Nat → List Nat)
    (extb data pw ph s : List Nat) (hp : Bool) (dl : Nat)
    (hdl : dl < 2 ^ 32) (hne : dl ≠ data.length) :
    parse_tail sha256f (extb.length :: (extb ++ (be32 dl ++ data))) pw hp ph s =
      .error DecodeErr.dataLengthMismatch := by
  have hb32 : (be32 dl).length = 4 := by simp [be32]
  have h3 : List.drop (1 + extb.length + 4)
      (extb.length :: (extb ++ (be32 dl ++ data))) = data := by
    rw [show 1 + extb.length + 4 = (extb.length + 4) + 1 by omega,
      List.drop_succ_cons, List.drop_append 4, ← hb32, List.drop_left]
  have h2 : List.drop (1 + extb.length)
      (extb.length :: (extb ++ (be32 dl ++ data))) = be32 dl ++ data := by
    rw [show 1 + extb.length = extb.length + 1 by omega, List.drop_succ_cons,
      List.drop_left]
  simp only [parse_tail, List.headD_cons, List.length_cons,
    List.length_append, h2, h3, hb32]
  rw [if_neg (by omega), if_neg (by omega), List.take_left' hb32,
    be32_roundtrip dl hdl, if_pos (by omega)]

/-- C9 (amended): every truncation of a field *before* the data — an empty
header, a password block shorter than 48 bytes, a missing `ext_len` byte
(both without the password block and right after a complete 48-byte password
block), or an `ext_len`/`data_len` region with fewer than `ext_len + 4` bytes
after the `ext_len` byte (with or without the password block) — fails with
`HeaderCorrupted` at the first short field; a data field shorter (or longer)
than its declared `data_len` instead fails with `DataLengthMismatch`, again
with or without the password block. -/
theorem c9_truncated_header (sha256f : List Nat → List Nat)
    (pw t hash salt extb data rest : List Nat) (b e dl : Nat) :
    parse_header sha256f [] pw = .error DecodeErr.headerCorrupted ∧
      (t.length < 48 → parse_header sha256f (1 :: t) pw =
        .error DecodeErr.headerCorrupted) ∧
      (b ≠ 1 → parse_header sha256f [b] pw =
        .error DecodeErr.headerCorrupted) ∧
      (t.length = 48 → parse_header sha256f (1 :: t) pw =
        .error DecodeErr.headerCorrupted) ∧
      (b ≠ 1 → rest.length < e + 4 →
        parse_header sha256f (b :: e :: rest) pw =
          .error DecodeErr.headerCorrupted) ∧
      (hash.length = 32 → salt.length = 16 → rest.length < e + 4 →
        parse_header sha256f (1 :: (hash ++ (salt ++ (e :: rest)))) pw =
          .error DecodeErr.headerCorrupted) ∧
      (b ≠ 1 → extb.length = e → dl < 2 ^ 32 → dl ≠ data.length →
        parse_header sha256f (b :: e :: (extb ++ (be32 dl ++ data))) pw =
          .error DecodeErr.dataLengthMismatch) ∧
      (hash.length = 32 → salt.length = 16 → extb.length = e →
        dl < 2 ^ 32 → dl ≠ data.length →
        parse_header sha256f
            (1 :: (hash ++ (salt ++ (e :: (extb ++ (be32 dl ++ data)))))) pw =
          .error DecodeErr.dataLengthMismatch) := by
  refine ⟨rfl, fun ht => ?_, fun hb => ?_, fun ht => ?_, fun hb hr => ?_,
    fun hh hs hr => ?_, fun hb he hdl hne => ?_, fun hh hs he hdl hne => ?_⟩
  · unfold parse_header
    rw [if_neg (by simp), if_pos (by simp),
      if_pos (by simp only [List.length_cons]; omega)]
  · rw [parse_header_not_one sha256f b hb]
    rfl
  · unfold parse_header
    rw [if_neg (by simp), if_pos (by simp),
      if_neg (by simp only [List.length_cons]; omega),
      show (49 : Nat) = 48 + 1 from rfl, List.drop_succ_cons,
      show (48 : Nat) = t.length by omega, List.drop_length]
    rfl
  · rw [parse_header_not_one sha256f b hb]
    simp only [parse_tail, List.headD_cons, List.length_cons]
    rw [if_neg (by omega), if_pos (by omega)]
  · unfold parse_header
    rw [if_neg (by simp), if_pos (by simp), if_neg (by simp; omega),
      drop_49_pwd hash salt (e :: rest) hh hs]
    simp only [parse_tail, List.headD_cons, List.length_cons]
    rw [if_neg (by omega), if_pos (by omega)]
  · subst he
    rw [parse_header_not_one sha256f b hb]
    exact parse_tail_data_mismatch sha256f extb data pw [] [] false dl hdl hne
  · subst he
    unfold parse_header
    rw [if_neg (by simp), if_pos (by simp), if_neg (by simp; omega),
      drop_49_pwd hash salt (extb.length :: (extb ++ (be32 dl ++ data))) hh hs]
    exact parse_tail_data_mismatch sha256f extb data pw _ _ true dl hdl hne

/-- Witness for C9 at the claim's own example: `ext_len = 10` with no bytes
following fails with `HeaderCorrupted`. -/
theorem c9_truncated_header_witness :
    (0 : Nat) ≠ 1 ∧ ([] : List Nat).length < 10 + 4 ∧
      parse_header shaZ [0, 10] [] = .error DecodeErr.headerCorrupted :=
  ⟨by decide, by decide,
    (c9_truncated_header shaZ [] [] [] [] [] [] [] 0 10 0).2.2.2.2.1
      (by decide) (by decide)⟩
